import Mathlib

/-! Apollo AI chat session (`src/premium.jsx`)

A shallow embedding of the conversation logic of the `ApolloAI` component: the
component state (the `useState` cells and the `requestInProgress` ref), the handlers
`sendMessage` and `clearChat`, and the event loop in which the asynchronous
`sendMessage` is suspended at its two `await` points while other handlers run.

Every handler is run against the state of the latest render.  An asynchronous
`sendMessage` is split at its awaits: the synchronous segment (guard, acquire, state
updates), the point where the 500 ms timer fires and `fetch` is issued, and the
point where the call settles.  The variables the continuation closes over
(`newMessages`, `model`, `maxTokens`, `systemPrompt`) are kept in a `Pending` record.

JavaScript strings are modelled by `String`, `Number` settings by `Nat`, `null` by
`none`.  The parsed response is typed by the fields the code reads:
`data.content[0].text`, `data.error.message`, `data.type`.
-/

namespace ApolloAI

/-! ## JavaScript string operations used by the component -/

/-- ECMAScript `WhiteSpace` and `LineTerminator` code points: the characters that
`String.prototype.trim` strips. -/
def isWhiteSpace (c : Char) : Bool :=
  c.toNat == 0x9 || c.toNat == 0xA || c.toNat == 0xB || c.toNat == 0xC || c.toNat == 0xD ||
  c.toNat == 0x20 || c.toNat == 0xA0 || c.toNat == 0x1680 ||
  (0x2000 ≤ c.toNat && c.toNat ≤ 0x200A) ||
  c.toNat == 0x2028 || c.toNat == 0x2029 || c.toNat == 0x202F || c.toNat == 0x205F ||
  c.toNat == 0x3000 || c.toNat == 0xFEFF

/-- Strip leading and trailing white space from a character list. -/
def trimChars (l : List Char) : List Char :=
  ((l.dropWhile isWhiteSpace).reverse.dropWhile isWhiteSpace).reverse

/-- The method `String.prototype.trim`. -/
def trim (s : String) : String := ⟨trimChars s.data⟩

/-- Whether the character list `hay` begins with `needle`. -/
def startsWithChars : List Char → List Char → Bool
  | _, [] => true
  | [], _ :: _ => false
  | h :: t, n :: ns => h == n && startsWithChars t ns

/-- Whether `needle` occurs in `hay` as a contiguous run. -/
def includesChars : List Char → List Char → Bool
  | [], needle => startsWithChars [] needle
  | h :: t, needle => startsWithChars (h :: t) needle || includesChars t needle

/-- The method `String.prototype.includes`. -/
def includes (s needle : String) : Bool := includesChars s.data needle.data

/-! ## Data model -/

/-- The two values of a message's `role` field. -/
inductive Role where
  | user
  | assistant
deriving DecidableEq, Repr

/-- A transcript entry `{ role, content }`. -/
structure Message where
  role : Role
  content : String
deriving DecidableEq, Repr

/-- The component state: lines 5-18, the `useState` cells and the ref
`requestInProgress` (`messagesEndRef` is a DOM handle and is left out). -/
structure State where
  messages : List Message
  input : String
  loading : Bool
  systemPrompt : String
  showSettings : Bool
  maxTokens : Nat
  error : Option String
  model : String
  copiedIndex : Option Nat
  requestInProgress : Bool
deriving DecidableEq, Repr

/-- The seed welcome message: the entry the transcript is created with (lines 5-8). -/
def seedMessage : Message where
  role := .assistant
  content := "🚀 **BETA** - Welcome to Apollo AI! This is an experimental interface with full Claude API access. Features may be unstable."

/-- The initial values of lines 5-18. -/
def initialState : State where
  messages := [seedMessage]
  input := ""
  loading := false
  systemPrompt := "You are Apollo, a helpful AI assistant with no artificial restrictions."
  showSettings := false
  maxTokens := 4000
  error := none
  model := "claude-sonnet-4-20250514"
  copiedIndex := none
  requestInProgress := false

/-- The JSON body of the outbound call (lines 64-69). -/
structure Payload where
  model : String
  max_tokens : Nat
  system : String
  messages : List Message
deriving DecidableEq, Repr

/-- An entry of `data.content`; the code reads its `text`. -/
structure ContentBlock where
  text : String
deriving DecidableEq, Repr

/-- The object `data.error`; the code reads its `message`, which may be absent. -/
structure ApiError where
  message : Option String
deriving DecidableEq, Repr

/-- The parsed response `data`, by the three fields the code reads. -/
structure ResponseData where
  content : Option (List ContentBlock)
  error : Option ApiError
  type : Option String
deriving DecidableEq, Repr

/-- How the outbound call ends: `response.json()` yields `data`, or `fetch` or
`response.json()` throws an error with the given `message`. -/
inductive Outcome where
  | response (data : ResponseData)
  | thrown (message : String)
deriving DecidableEq, Repr

/-- The variables an in-flight `sendMessage` closes over, and whether its 500 ms
timer has fired and `fetch` has been issued. -/
structure Pending where
  newMessages : List Message
  model : String
  maxTokens : Nat
  systemPrompt : String
  issued : Bool
deriving DecidableEq, Repr

/-- The component together with its environment: the suspended `sendMessage`
calls and the log of bodies passed to `fetch`. -/
structure Session where
  st : State
  pending : List Pending
  sent : List Payload
deriving DecidableEq, Repr

/-- The session at mount. -/
def initialSession : Session := ⟨initialState, [], []⟩

/-! ## `sendMessage` (lines 44-107) -/

/-- Line 45: `!input.trim() || loading || requestInProgress.current`. -/
def sendGuardRejects (s : State) : Bool :=
  (trim s.input == "") || s.loading || s.requestInProgress

/-- Lines 45-54: the synchronous segment of `sendMessage` up to the first `await`.
`none` is the early `return`; otherwise the updated state and the closure of the
continuation. -/
def sendMessage_start (s : State) : Option (State × Pending) :=
  if sendGuardRejects s then none
  else
    let userMessage : Message := { role := .user, content := s.input }
    let newMessages := s.messages ++ [userMessage]
    some ({ s with
            requestInProgress := true
            messages := newMessages
            input := ""
            loading := true
            error := none },
          { newMessages := newMessages
            model := s.model
            maxTokens := s.maxTokens
            systemPrompt := s.systemPrompt
            issued := false })

/-- Lines 64-69: the body given to `fetch`. -/
def sendMessage_payload (k : Pending) : Payload where
  model := k.model
  max_tokens := k.maxTokens
  system := k.systemPrompt
  messages := k.newMessages.filter
    (fun m => m.role != Role.assistant || !(includes m.content "BETA"))

/-- Lines 72-106: the `try` body after the call, the `catch` and the `finally`. -/
def sendMessage_settle (k : Pending) (o : Outcome) (s : State) : State :=
  let s1 : State :=
    match o with
    | .response data =>
      match data.content.bind List.head? with
      | some block =>
        let assistantMessage : Message := { role := .assistant, content := block.text }
        { s with messages := k.newMessages ++ [assistantMessage], error := none }
      | none =>
        match data.error with
        | some err =>
          let errorMsg :=
            match err.message with
            | some m => if m == "" then "API request failed" else m
            | none => "API request failed"
          let errorMsg :=
            if data.type == some "exceeded_limit" then
              "Rate limit exceeded. Please wait a moment before sending another message."
            else errorMsg
          { s with
            error := some errorMsg
            messages := k.newMessages ++ [{ role := .assistant, content := "⚠️ " ++ errorMsg }] }
        | none => { s with error := some "Unexpected API response format" }
    | .thrown message =>
      let errorMsg := "Connection error: " ++ message
      { s with
        error := some errorMsg
        messages := k.newMessages ++ [{ role := .assistant, content := "⚠️ " ++ errorMsg }] }
  { s1 with loading := false, requestInProgress := false }

/-! ## `clearChat` (lines 109-115) -/

/-- Lines 109-115. -/
def clearChat (s : State) : State :=
  { s with
    messages := [{
      role := .assistant,
      content := "🚀 **BETA** - Welcome to Apollo AI! This is an experimental interface with full Claude API access. Features may be unstable."
    }]
    error := none }

/-! ## The event loop -/

/-- What can happen to the mounted component: the handlers wired in the JSX, and
the two resumptions of a suspended `sendMessage`. -/
inductive Event where
  /-- Handler `onChange` of the draft input: `setInput(e.target.value)`. -/
  | setInput (value : String)
  /-- Click on the send button or Enter in the draft input: `sendMessage()`. -/
  | sendMessage
  /-- Click on Clear. -/
  | clearChat
  /-- Click on Dismiss: `setError(null)`. -/
  | dismissError
  /-- Click on Settings: `setShowSettings(!showSettings)`. -/
  | toggleSettings
  /-- Handler `onChange` of the model selector. -/
  | setModel (value : String)
  /-- Handler `onChange` of the system prompt. -/
  | setSystemPrompt (value : String)
  /-- Handler `onChange` of the max-token slider. -/
  | setMaxTokens (value : Nat)
  /-- The clipboard write of `copyToClipboard` succeeded: `setCopiedIndex(index)`. -/
  | copied (index : Nat)
  /-- The 2 s timer of `copyToClipboard`: `setCopiedIndex(null)`. -/
  | copyExpired
  /-- The 500 ms timer of the `i`-th suspended `sendMessage` fires: `fetch` is issued. -/
  | timerFired (i : Nat)
  /-- The call of the `i`-th suspended `sendMessage` settles with outcome `o`. -/
  | completed (i : Nat) (o : Outcome)
deriving DecidableEq, Repr

/-- The events raised by the user interface, as opposed to the resumptions of a
suspended `sendMessage`. -/
def Event.isInterface : Event → Bool
  | .timerFired _ => false
  | .completed _ _ => false
  | _ => true

/-- One turn of the event loop. -/
def step (w : Session) : Event → Session
  | .setInput v => { w with st := { w.st with input := v } }
  | .sendMessage =>
    match sendMessage_start w.st with
    | none => w
    | some (s, k) => { w with st := s, pending := w.pending ++ [k] }
  | .clearChat => { w with st := clearChat w.st }
  | .dismissError => { w with st := { w.st with error := none } }
  | .toggleSettings => { w with st := { w.st with showSettings := !w.st.showSettings } }
  | .setModel v => { w with st := { w.st with model := v } }
  | .setSystemPrompt v => { w with st := { w.st with systemPrompt := v } }
  | .setMaxTokens v => { w with st := { w.st with maxTokens := v } }
  | .copied i => { w with st := { w.st with copiedIndex := some i } }
  | .copyExpired => { w with st := { w.st with copiedIndex := none } }
  | .timerFired i =>
    match w.pending[i]? with
    | some k =>
      if k.issued then w
      else { w with
             pending := w.pending.set i { k with issued := true }
             sent := w.sent ++ [sendMessage_payload k] }
    | none => w
  | .completed i o =>
    match w.pending[i]? with
    | some k =>
      if k.issued then
        { w with st := sendMessage_settle k o w.st, pending := w.pending.eraseIdx i }
      else w
    | none => w

/-- Run a sequence of events. -/
def run (w : Session) (evs : List Event) : Session := evs.foldl step w

/-- One call of `sendMessage` carried to its end with outcome `o` and nothing else
happening in between: the call, its timer, the settling of its request. -/
def sendMessage (w : Session) (o : Outcome) : Session :=
  run w [.sendMessage, .timerFired w.pending.length, .completed w.pending.length o]

/-! ## Definitions used to state the properties -/

/-- The in-flight count matches the ref: one suspended call when it is set, none
when it is clear. -/
def InFlightInv (w : Session) : Prop :=
  w.pending.length = if w.st.requestInProgress then 1 else 0

/-- The user-facing error text as the specification derives it: the canned
rate-limit text when the response's type is `exceeded_limit`, otherwise the error
object's message when it is non-empty, otherwise the generic fallback. -/
def specErrorText (data : ResponseData) (err : ApiError) : String :=
  if data.type = some "exceeded_limit" then
    "Rate limit exceeded. Please wait a moment before sending another message."
  else
    match err.message with
    | some m => if m ≠ "" then m else "API request failed"
    | none => "API request failed"

/-- The transcript entry a settled call appends, as the specification words it: the
reply text on a content entry, the warning-marked error text on an error object,
the warning-marked connection error on a thrown failure, nothing otherwise. -/
def specReply : Outcome → Option Message
  | .response data =>
    match data.content with
    | some (block :: _) => some ⟨.assistant, block.text⟩
    | _ =>
      match data.error with
      | some err => some ⟨.assistant, "⚠️ " ++ specErrorText data err⟩
      | none => none
  | .thrown message => some ⟨.assistant, "⚠️ " ++ ("Connection error: " ++ message)⟩

/-- The outbound message list as the specification words it: the transcript with
the new user message appended, in order, the seed welcome message removed and
every other entry kept. -/
def specPayloadMessages (transcript : List Message) (draft : String) : List Message :=
  (transcript ++ [Message.mk .user draft]).filter (fun m => m != seedMessage)

/-- A run from mount in which the assistant's reply contains the marker text: one
completed turn, then a second draft. -/
def markerReplyRun : List Event :=
  [.setInput "Spell beta in capitals", .sendMessage, .timerFired 0,
    .completed 0 (.response ⟨some [⟨"BETA"⟩], none, none⟩), .setInput "thanks"]


/-! ## Auxiliary facts -/

theorem trimChars_of_all (l : List Char) (h : ∀ c ∈ l, isWhiteSpace c = true) :
    trimChars l = [] := by
  have hd : l.dropWhile isWhiteSpace = [] := by
    simpa [List.dropWhile_eq_nil_iff] using h
  simp [trimChars, hd]

theorem trim_of_all (s : String) (h : ∀ c ∈ s.data, isWhiteSpace c = true) :
    trim s = "" := by
  simp [trim, trimChars_of_all _ h]

theorem start_of_reject (s : State) (h : sendGuardRejects s = true) :
    sendMessage_start s = none := by
  simp [sendMessage_start, h]

theorem start_of_accept (s : State) (h : sendGuardRejects s = false) :
    sendMessage_start s =
      some ({ s with
              requestInProgress := true
              messages := s.messages ++ [⟨.user, s.input⟩]
              input := ""
              loading := true
              error := none },
            ⟨s.messages ++ [⟨.user, s.input⟩], s.model, s.maxTokens, s.systemPrompt, false⟩) := by
  simp [sendMessage_start, h]

theorem reject_of_busy (s : State) (h : s.requestInProgress = true) :
    sendGuardRejects s = true := by
  simp [sendGuardRejects, h]

theorem getElem?_snoc {α : Type} (ps : List α) (k : α) : (ps ++ [k])[ps.length]? = some k := by
  simp

theorem set_snoc {α : Type} (ps : List α) (k k' : α) :
    (ps ++ [k]).set ps.length k' = ps ++ [k'] := by
  induction ps with
  | nil => rfl
  | cons a t ih => simp [ih]

theorem eraseIdx_snoc {α : Type} (ps : List α) (k : α) :
    (ps ++ [k]).eraseIdx ps.length = ps := by
  induction ps with
  | nil => rfl
  | cons a t ih => simp [ih]

/-- While a request is outstanding, an interface event changes neither the
suspended calls, nor the log of issued calls, nor the two in-flight flags. -/
theorem step_interface_of_busy (w : Session) (e : Event) (he : e.isInterface = true)
    (hb : w.st.requestInProgress = true) :
    (step w e).pending = w.pending ∧ (step w e).sent = w.sent ∧
      (step w e).st.requestInProgress = true ∧ (step w e).st.loading = w.st.loading := by
  cases e <;> simp_all [step, Event.isInterface, clearChat, start_of_reject, reject_of_busy]

theorem run_interface_of_busy (evs : List Event) (w : Session)
    (he : ∀ e ∈ evs, e.isInterface = true) (hb : w.st.requestInProgress = true) :
    (run w evs).pending = w.pending ∧ (run w evs).sent = w.sent ∧
      (run w evs).st.requestInProgress = true ∧ (run w evs).st.loading = w.st.loading := by
  induction evs generalizing w with
  | nil => simp [run, hb]
  | cons e t ih =>
    obtain ⟨h1, h2, h3, h4⟩ := step_interface_of_busy w e (he e (by simp)) hb
    obtain ⟨g1, g2, g3, g4⟩ := ih (step w e) (fun x hx => he x (by simp [hx])) h3
    simp only [run, List.foldl_cons] at *
    exact ⟨g1.trans h1, g2.trans h2, g3, g4.trans h4⟩

theorem run_append (w : Session) (a b : List Event) : run w (a ++ b) = run (run w a) b := by
  simp [run, List.foldl_append]


theorem step_timerFired_snoc (s : State) (ps : List Pending) (k : Pending) (sent : List Payload)
    (hk : k.issued = false) :
    step ⟨s, ps ++ [k], sent⟩ (.timerFired ps.length) =
      ⟨s, ps ++ [{ k with issued := true }], sent ++ [sendMessage_payload k]⟩ := by
  simp [step, hk, set_snoc]

theorem step_completed_snoc (s : State) (ps : List Pending) (k : Pending) (sent : List Payload)
    (o : Outcome) (hk : k.issued = true) :
    step ⟨s, ps ++ [k], sent⟩ (.completed ps.length o) =
      ⟨sendMessage_settle k o s, ps, sent⟩ := by
  simp [step, hk, eraseIdx_snoc]

theorem step_sendMessage_of_accept (w : Session) (h : sendGuardRejects w.st = false) :
    step w .sendMessage =
      ⟨{ w.st with
          requestInProgress := true
          messages := w.st.messages ++ [⟨.user, w.st.input⟩]
          input := ""
          loading := true
          error := none },
        w.pending ++ [⟨w.st.messages ++ [⟨.user, w.st.input⟩], w.st.model, w.st.maxTokens,
          w.st.systemPrompt, false⟩],
        w.sent⟩ := by
  simp [step, start_of_accept _ h]

/-- From a session whose last suspended call is `k`, not yet issued: interface
events, the timer of `k`, interface events, the settling of `k`. -/
theorem run_cycle_aux (w₁ : Session) (ps : List Pending) (k : Pending)
    (hp : w₁.pending = ps ++ [k]) (hk : k.issued = false)
    (hb : w₁.st.requestInProgress = true)
    (evs₁ evs₂ : List Event) (h₁ : ∀ e ∈ evs₁, e.isInterface = true)
    (h₂ : ∀ e ∈ evs₂, e.isInterface = true) (o : Outcome) :
    ∃ s₂ : State,
      run w₁ (evs₁ ++ [Event.timerFired ps.length] ++ evs₂ ++ [Event.completed ps.length o]) =
        ⟨sendMessage_settle { k with issued := true } o s₂, ps,
          w₁.sent ++ [sendMessage_payload k]⟩ := by
  obtain ⟨a1, a2, a3, -⟩ := run_interface_of_busy evs₁ w₁ h₁ hb
  rw [run_append, run_append, run_append]
  generalize run w₁ evs₁ = w₂ at a1 a2 a3
  obtain ⟨s, p, t⟩ := w₂
  simp only at a1 a2 a3
  subst a1 a2
  have e5 : ∀ (x : Session) (e : Event), run x [e] = step x e := fun _ _ => rfl
  rw [e5, e5, hp, step_timerFired_snoc _ _ _ _ hk]
  obtain ⟨b1, b2, -, -⟩ := run_interface_of_busy evs₂
    ⟨s, ps ++ [{ k with issued := true }], w₁.sent ++ [sendMessage_payload k]⟩ h₂ a3
  generalize run ⟨s, ps ++ [{ k with issued := true }], w₁.sent ++ [sendMessage_payload k]⟩ evs₂
    = w₃ at b1 b2
  obtain ⟨s', p', t'⟩ := w₃
  simp only at b1 b2
  subst b1 b2
  exact ⟨s', step_completed_snoc _ _ _ _ _ rfl⟩

/-- A whole send cycle with interface events interleaved at both suspension points:
the suspended calls are as before, one body has been logged, and the state is the
settling of the closure captured at the start. -/
theorem run_cycle (w : Session) (h : sendGuardRejects w.st = false)
    (evs₁ evs₂ : List Event) (h₁ : ∀ e ∈ evs₁, e.isInterface = true)
    (h₂ : ∀ e ∈ evs₂, e.isInterface = true) (o : Outcome) :
    ∃ s₂ : State,
      run w ([Event.sendMessage] ++ evs₁ ++ [Event.timerFired w.pending.length] ++ evs₂ ++
          [Event.completed w.pending.length o]) =
        ⟨sendMessage_settle
            ⟨w.st.messages ++ [⟨.user, w.st.input⟩], w.st.model, w.st.maxTokens,
              w.st.systemPrompt, true⟩ o s₂,
          w.pending,
          w.sent ++ [sendMessage_payload
            ⟨w.st.messages ++ [⟨.user, w.st.input⟩], w.st.model, w.st.maxTokens,
              w.st.systemPrompt, false⟩]⟩ := by
  have e1 := step_sendMessage_of_accept w h
  have hrun : run w ([Event.sendMessage] ++ evs₁ ++ [Event.timerFired w.pending.length] ++ evs₂ ++
      [Event.completed w.pending.length o]) =
      run (step w .sendMessage) (evs₁ ++ [Event.timerFired w.pending.length] ++ evs₂ ++
        [Event.completed w.pending.length o]) := by
    simp [run]
  rw [hrun]
  have := run_cycle_aux (step w .sendMessage) w.pending
    ⟨w.st.messages ++ [⟨.user, w.st.input⟩], w.st.model, w.st.maxTokens, w.st.systemPrompt, false⟩
    (by rw [e1]) rfl (by rw [e1]) evs₁ evs₂ h₁ h₂ o
  rw [e1] at this ⊢
  exact this

/-- The send cycle with nothing interleaved. -/
theorem sendMessage_of_accept (w : Session) (h : sendGuardRejects w.st = false) (o : Outcome) :
    sendMessage w o =
      ⟨sendMessage_settle
          ⟨w.st.messages ++ [⟨.user, w.st.input⟩], w.st.model, w.st.maxTokens,
            w.st.systemPrompt, true⟩ o
          { w.st with
            requestInProgress := true
            messages := w.st.messages ++ [⟨.user, w.st.input⟩]
            input := ""
            loading := true
            error := none },
        w.pending,
        w.sent ++ [sendMessage_payload
          ⟨w.st.messages ++ [⟨.user, w.st.input⟩], w.st.model, w.st.maxTokens,
            w.st.systemPrompt, false⟩]⟩ := by
  simp only [sendMessage, run, List.foldl_cons, List.foldl_nil]
  rw [step_sendMessage_of_accept w h, step_timerFired_snoc _ _ _ _ rfl,
    step_completed_snoc _ _ _ _ _ rfl]

theorem sendMessage_of_reject (w : Session) (h : sendGuardRejects w.st = true) (o : Outcome) :
    sendMessage w o = w := by
  simp [sendMessage, run, step, start_of_reject _ h]


theorem settle_flags (k : Pending) (o : Outcome) (s : State) :
    (sendMessage_settle k o s).loading = false ∧
      (sendMessage_settle k o s).requestInProgress = false := by
  simp [sendMessage_settle]

theorem settle_content (k : Pending) (data : ResponseData) (s : State)
    (block : ContentBlock) (rest : List ContentBlock) (hc : data.content = some (block :: rest)) :
    sendMessage_settle k (.response data) s =
      { s with
        messages := k.newMessages ++ [⟨.assistant, block.text⟩]
        error := none
        loading := false
        requestInProgress := false } := by
  simp [sendMessage_settle, hc]

theorem inFlightInv_initial : InFlightInv initialSession := by
  simp [InFlightInv, initialSession, initialState]

theorem inFlightInv_step (w : Session) (e : Event) (hw : InFlightInv w) :
    InFlightInv (step w e) := by
  cases e with
  | sendMessage =>
    by_cases hg : sendGuardRejects w.st = true
    · simpa [step, start_of_reject _ hg] using hw
    · have hg' : sendGuardRejects w.st = false := by simpa using hg
      have hr : w.st.requestInProgress = false := by
        simp [sendGuardRejects] at hg'
        exact hg'.2
      rw [step_sendMessage_of_accept w hg']
      simp [InFlightInv, hr] at hw
      simp [InFlightInv, hw]
  | timerFired i =>
    cases hk : w.pending[i]? with
    | none => simpa [step, hk] using hw
    | some k =>
      by_cases hi : k.issued = true
      · simpa [step, hk, hi] using hw
      · simpa [step, hk, hi, InFlightInv] using hw
  | completed i o =>
    cases hk : w.pending[i]? with
    | none => simpa [step, hk] using hw
    | some k =>
      by_cases hi : k.issued = true
      · have hlt : i < w.pending.length := by
          rcases List.getElem?_eq_some_iff.mp hk with ⟨hlt, -⟩
          exact hlt
        have hlen : w.pending.length = 1 := by
          unfold InFlightInv at hw
          split at hw
          · exact hw
          · omega
        have hstep : step w (.completed i o) =
            ⟨sendMessage_settle k o w.st, w.pending.eraseIdx i, w.sent⟩ := by
          simp only [step, hk, hi, if_true]
        rw [hstep]
        simp only [InFlightInv, (settle_flags k o w.st).2, List.length_eraseIdx, hlt, if_true]
        simp [hlen]
      · simpa [step, hk, hi] using hw
  | _ => simpa [step, clearChat, InFlightInv] using hw

theorem inFlightInv_run (evs : List Event) (w : Session) (hw : InFlightInv w) :
    InFlightInv (run w evs) := by
  induction evs generalizing w with
  | nil => exact hw
  | cons e t ih => exact ih (step w e) (inFlightInv_step w e hw)


theorem seed_is_filtered :
    (seedMessage.role != Role.assistant || !(includes seedMessage.content "BETA")) = false := by
  decide

theorem seed_not_mem_payload (k : Pending) : seedMessage ∉ (sendMessage_payload k).messages := by
  intro hm
  have := (List.mem_filter.mp hm).2
  rw [seed_is_filtered] at this
  exact Bool.false_ne_true this

theorem sent_excludes_seed_step (w : Session) (e : Event)
    (hw : ∀ p ∈ w.sent, seedMessage ∉ p.messages) :
    ∀ p ∈ (step w e).sent, seedMessage ∉ p.messages := by
  cases e with
  | sendMessage =>
    by_cases hg : sendGuardRejects w.st = true
    · simpa [step, start_of_reject _ hg] using hw
    · have hg' : sendGuardRejects w.st = false := by simpa using hg
      rw [step_sendMessage_of_accept w hg']
      exact hw
  | timerFired i =>
    cases hk : w.pending[i]? with
    | none => simpa [step, hk] using hw
    | some k =>
      by_cases hi : k.issued = true
      · simpa [step, hk, hi] using hw
      · have hstep : step w (.timerFired i) =
            ⟨w.st, w.pending.set i { k with issued := true },
              w.sent ++ [sendMessage_payload k]⟩ := by
          simp only [step, hk, hi]
          rfl
        rw [hstep]
        intro p hp
        rcases List.mem_append.mp hp with h | h
        · exact hw p h
        · rw [List.mem_singleton.mp h]
          exact seed_not_mem_payload k
  | completed i o =>
    cases hk : w.pending[i]? with
    | none => simpa [step, hk] using hw
    | some k =>
      by_cases hi : k.issued = true
      · simpa [step, hk, hi] using hw
      · simpa [step, hk, hi] using hw
  | _ => simpa [step] using hw

theorem sent_excludes_seed_run (evs : List Event) (w : Session)
    (hw : ∀ p ∈ w.sent, seedMessage ∉ p.messages) :
    ∀ p ∈ (run w evs).sent, seedMessage ∉ p.messages := by
  induction evs generalizing w with
  | nil => exact hw
  | cons e t ih => exact ih (step w e) (sent_excludes_seed_step w e hw)

theorem settle_error (k : Pending) (data : ResponseData) (s : State) (err : ApiError)
    (hc : data.content = none ∨ data.content = some []) (he : data.error = some err) :
    sendMessage_settle k (.response data) s =
      { s with
        messages := k.newMessages ++ [⟨.assistant, "⚠️ " ++ specErrorText data err⟩]
        error := some (specErrorText data err)
        loading := false
        requestInProgress := false } := by
  have hh : data.content.bind List.head? = none := by
    rcases hc with hc | hc <;> simp [hc]
  unfold sendMessage_settle specErrorText
  simp only [hh, he]
  by_cases ht : data.type = some "exceeded_limit"
  · simp [ht]
  · cases hm : err.message with
    | none => simp [ht]
    | some m =>
      by_cases hm0 : m = ""
      · simp [ht, hm0]
      · simp [ht, hm0]

theorem settle_neither (k : Pending) (data : ResponseData) (s : State)
    (hc : data.content = none ∨ data.content = some []) (he : data.error = none) :
    sendMessage_settle k (.response data) s =
      { s with
        error := some "Unexpected API response format"
        loading := false
        requestInProgress := false } := by
  have hh : data.content.bind List.head? = none := by
    rcases hc with hc | hc <;> simp [hc]
  simp [sendMessage_settle, hh, he]

theorem settle_thrown (k : Pending) (message : String) (s : State) :
    sendMessage_settle k (.thrown message) s =
      { s with
        messages := k.newMessages ++ [⟨.assistant, "⚠️ " ++ ("Connection error: " ++ message)⟩]
        error := some ("Connection error: " ++ message)
        loading := false
        requestInProgress := false } := by
  simp [sendMessage_settle]

theorem settle_messages_of_reply (k : Pending) (o : Outcome) (s : State) (r : Message)
    (hr : specReply o = some r) :
    (sendMessage_settle k o s).messages = k.newMessages ++ [r] := by
  cases o with
  | thrown message =>
    simp only [specReply, Option.some.injEq] at hr
    rw [settle_thrown, ← hr]
  | response data =>
    cases hc : data.content with
    | none =>
      cases he : data.error with
      | none => simp [specReply, hc, he] at hr
      | some err =>
        simp only [specReply, hc, he, Option.some.injEq] at hr
        rw [settle_error k data s err (Or.inl hc) he, ← hr]
    | some l =>
      cases l with
      | nil =>
        cases he : data.error with
        | none => simp [specReply, hc, he] at hr
        | some err =>
          simp only [specReply, hc, he, Option.some.injEq] at hr
          rw [settle_error k data s err (Or.inr hc) he, ← hr]
      | cons block rest =>
        simp only [specReply, hc, Option.some.injEq] at hr
        rw [settle_content k data s block rest hc, ← hr]

/-! ## The claims -/

/-- C1: from every session state in which `sendMessage` passes its guard, and for
every outcome of the outbound call (content, error object, neither, or a thrown
failure), the state after `sendMessage` has finished has `loading = false` and
`requestInProgress = false`; this holds for the call run on its own and for the
call with any interface events interleaved at its two suspension points. -/
theorem sendMessage_releases_in_flight (w : Session) (h : sendGuardRejects w.st = false)
    (evs₁ evs₂ : List Event) (h₁ : ∀ e ∈ evs₁, e.isInterface = true)
    (h₂ : ∀ e ∈ evs₂, e.isInterface = true) (o : Outcome) :
    ((sendMessage w o).st.loading = false ∧ (sendMessage w o).st.requestInProgress = false) ∧
    ((run w ([Event.sendMessage] ++ evs₁ ++ [Event.timerFired w.pending.length] ++ evs₂ ++
        [Event.completed w.pending.length o])).st.loading = false ∧
      (run w ([Event.sendMessage] ++ evs₁ ++ [Event.timerFired w.pending.length] ++ evs₂ ++
        [Event.completed w.pending.length o])).st.requestInProgress = false) := by
  refine ⟨?_, ?_⟩
  · rw [sendMessage_of_accept w h o]
    exact settle_flags _ _ _
  · obtain ⟨s₂, hs⟩ := run_cycle w h evs₁ evs₂ h₁ h₂ o
    rw [hs]
    exact settle_flags _ _ _

/-- Witness for C1: draft "hi" at mount, a clear and a settings change while the
call is pending, and a thrown transport failure. -/
theorem sendMessage_releases_in_flight_witness :
    sendGuardRejects ({ initialState with input := "hi" }) = false ∧
    ((sendMessage ⟨{ initialState with input := "hi" }, [], []⟩
        (.thrown "Failed to fetch")).st.loading = false ∧
      (sendMessage ⟨{ initialState with input := "hi" }, [], []⟩
        (.thrown "Failed to fetch")).st.requestInProgress = false) ∧
    ((run ⟨{ initialState with input := "hi" }, [], []⟩
        ([Event.sendMessage] ++ [Event.clearChat] ++ [Event.timerFired 0] ++
          [Event.setMaxTokens 100] ++
          [Event.completed 0 (.thrown "Failed to fetch")])).st.loading = false ∧
      (run ⟨{ initialState with input := "hi" }, [], []⟩
        ([Event.sendMessage] ++ [Event.clearChat] ++ [Event.timerFired 0] ++
          [Event.setMaxTokens 100] ++
          [Event.completed 0 (.thrown "Failed to fetch")])).st.requestInProgress = false) :=
  ⟨by decide,
    sendMessage_releases_in_flight ⟨{ initialState with input := "hi" }, [], []⟩ (by decide)
      [Event.clearChat] [Event.setMaxTokens 100] (by decide) (by decide)
      (.thrown "Failed to fetch")⟩

/-- C2: in every state reachable from the initial session by any sequence of events
(starting a send, the timer and the settling of a suspended send with any outcome,
clear, edits of the draft and the settings), at most one request is outstanding, and
one is outstanding exactly when `requestInProgress` is set.  From such a state a
step adds an outstanding request only if it is `sendMessage` taken with
`requestInProgress` false and nothing outstanding, and it then sets the flag; the
flag goes from set to clear only by the settling of the one outstanding request. -/
theorem at_most_one_request_in_flight (evs : List Event) :
    (run initialSession evs).pending.length ≤ 1 ∧
    ((run initialSession evs).st.requestInProgress = true ↔
      (run initialSession evs).pending.length = 1) ∧
    (∀ e : Event,
      (run initialSession evs).pending.length < (step (run initialSession evs) e).pending.length →
        e = Event.sendMessage ∧ (run initialSession evs).st.requestInProgress = false ∧
          (run initialSession evs).pending = [] ∧
          (step (run initialSession evs) e).st.requestInProgress = true) ∧
    (∀ e : Event,
      (run initialSession evs).st.requestInProgress = true →
      (step (run initialSession evs) e).st.requestInProgress = false →
        ∃ o k, e = Event.completed 0 o ∧ (run initialSession evs).pending = [k] ∧
          (step (run initialSession evs) e).pending = []) := by
  have hinv := inFlightInv_run evs initialSession inFlightInv_initial
  generalize run initialSession evs = w at hinv
  have hlen : w.pending.length = if w.st.requestInProgress then 1 else 0 := hinv
  refine ⟨?_, ?_, ?_, ?_⟩
  · rw [hlen]; split <;> omega
  · rw [hlen]; cases w.st.requestInProgress <;> simp
  · intro e hlt
    cases e with
    | sendMessage =>
      by_cases hg : sendGuardRejects w.st = true
      · simp [step, start_of_reject _ hg] at hlt
      · have hg' : sendGuardRejects w.st = false := by simpa using hg
        have hr : w.st.requestInProgress = false := by
          simp [sendGuardRejects] at hg'
          exact hg'.2
        refine ⟨rfl, hr, ?_, ?_⟩
        · rw [hr] at hlen
          exact List.length_eq_zero.mp (by simpa using hlen)
        · rw [step_sendMessage_of_accept w hg']
    | timerFired i =>
      exfalso
      cases hk : w.pending[i]? with
      | none => simp [step, hk] at hlt
      | some k =>
        by_cases hi : k.issued = true
        · simp [step, hk, hi] at hlt
        · simp [step, hk, hi] at hlt
    | completed i o =>
      exfalso
      cases hk : w.pending[i]? with
      | none => simp [step, hk] at hlt
      | some k =>
        by_cases hi : k.issued = true
        · have hstep : step w (.completed i o) =
              ⟨sendMessage_settle k o w.st, w.pending.eraseIdx i, w.sent⟩ := by
            simp only [step, hk, hi, if_true]
          rw [hstep] at hlt
          simp only [List.length_eraseIdx] at hlt
          split at hlt <;> omega
        · simp [step, hk, hi] at hlt
    | _ => simp [step] at hlt
  · intro e hb hf
    have hone : w.pending.length = 1 := by rw [hlen, hb]; rfl
    cases e with
    | sendMessage =>
      simp [step, start_of_reject _ (reject_of_busy _ hb), hb] at hf
    | timerFired i =>
      exfalso
      cases hk : w.pending[i]? with
      | none => simp [step, hk, hb] at hf
      | some k =>
        by_cases hi : k.issued = true
        · simp [step, hk, hi, hb] at hf
        · simp [step, hk, hi, hb] at hf
    | completed i o =>
      cases hk : w.pending[i]? with
      | none => simp [step, hk, hb] at hf
      | some k =>
        have hlt : i < w.pending.length := by
          rcases List.getElem?_eq_some_iff.mp hk with ⟨hlt, -⟩
          exact hlt
        have hi0 : i = 0 := by omega
        subst hi0
        obtain ⟨k', hk'⟩ := List.length_eq_one.mp hone
        have hkk : k' = k := by
          rw [hk'] at hk
          simpa using hk
        subst hkk
        by_cases hi : k'.issued = true
        · refine ⟨o, k', rfl, hk', ?_⟩
          simp [step, hk', hi]
        · simp [step, hk', hi, hb] at hf
    | _ => simp [step, clearChat, hb] at hf


/-- C3: in every session state whose draft is empty or consists of white space only,
or in which a request is pending (`loading` or `requestInProgress` set), `sendMessage`
returns at its guard and is a no-op: the whole session is unchanged, so the
transcript, the draft, the stored error and both in-flight flags are as before, no
call is scheduled, and nothing is added to the log of issued calls. -/
theorem sendMessage_rejected_is_noop (w : Session)
    (h : (∀ c ∈ w.st.input.data, isWhiteSpace c = true) ∨ w.st.loading = true ∨
      w.st.requestInProgress = true) :
    sendMessage_start w.st = none ∧ step w Event.sendMessage = w ∧
    ∀ o : Outcome, sendMessage w o = w ∧
      (sendMessage w o).st.messages = w.st.messages ∧
      (sendMessage w o).st.input = w.st.input ∧
      (sendMessage w o).st.error = w.st.error ∧
      (sendMessage w o).st.loading = w.st.loading ∧
      (sendMessage w o).st.requestInProgress = w.st.requestInProgress ∧
      (sendMessage w o).pending = w.pending ∧
      (sendMessage w o).sent = w.sent := by
  have hg : sendGuardRejects w.st = true := by
    rcases h with h | h | h
    · simp [sendGuardRejects, trim_of_all _ h]
    · simp [sendGuardRejects, h]
    · simp [sendGuardRejects, h]
  refine ⟨start_of_reject _ hg, ?_, ?_⟩
  · simp [step, start_of_reject _ hg]
  · intro o
    rw [sendMessage_of_reject w hg o]
    simp

/-- Witness for C3: a draft of blanks, a tab and a line feed at mount. -/
theorem sendMessage_rejected_is_noop_witness :
    ((∀ c ∈ (" \t\n ").data, isWhiteSpace c = true) ∨ initialState.loading = true ∨
      initialState.requestInProgress = true) ∧
    ∀ o : Outcome,
      sendMessage ⟨{ initialState with input := " \t\n " }, [], []⟩ o =
        ⟨{ initialState with input := " \t\n " }, [], []⟩ :=
  ⟨Or.inl (by decide),
    fun o => ((sendMessage_rejected_is_noop ⟨{ initialState with input := " \t\n " }, [], []⟩
      (Or.inl (by decide))).2.2 o).1⟩

/-- C4: for every transcript and every accepted draft, the `messages` list of the
body that `sendMessage` passes to `fetch` has no entry equal to the seed welcome
message; and in every run from the initial session, whatever its turns and clears,
no body ever issued has such an entry. -/
theorem payload_excludes_seed (w : Session) (h : sendGuardRejects w.st = false)
    (o : Outcome) :
    (∃ p : Payload, (sendMessage w o).sent = w.sent ++ [p] ∧
      p.messages = (w.st.messages ++ [Message.mk .user w.st.input]).filter
        (fun m => m.role != Role.assistant || !(includes m.content "BETA")) ∧
      seedMessage ∉ p.messages) ∧
    ∀ evs : List Event, ∀ p ∈ (run initialSession evs).sent, seedMessage ∉ p.messages := by
  refine ⟨?_, ?_⟩
  · rw [sendMessage_of_accept w h o]
    exact Exists.intro (sendMessage_payload _) ⟨rfl, rfl, seed_not_mem_payload _⟩
  · intro evs
    exact sent_excludes_seed_run evs initialSession (by simp [initialSession])

/-- Witness for C4: the first turn, draft "hi" on the seed-only transcript. -/
theorem payload_excludes_seed_witness :
    sendGuardRejects ({ initialState with input := "hi" }) = false ∧
    ∃ p : Payload,
      (sendMessage ⟨{ initialState with input := "hi" }, [], []⟩
        (.response ⟨some [⟨"hello"⟩], none, none⟩)).sent = [] ++ [p] ∧
      seedMessage ∉ p.messages :=
  ⟨by decide,
    let ⟨p, hp, _, hs⟩ := (payload_excludes_seed ⟨{ initialState with input := "hi" }, [], []⟩
      (by decide) (.response ⟨some [⟨"hello"⟩], none, none⟩)).1
    ⟨p, hp, hs⟩⟩

/-- C5, counterexample: after a turn whose reply is the text "BETA", the transcript
is the seed, the user message and that reply; on the next accepted draft the body
issued holds the two user messages only, whereas the transcript minus the seed also
holds the reply. -/
theorem payload_drops_marker_reply :
    sendGuardRejects (run initialSession markerReplyRun).st = false ∧
    (run initialSession markerReplyRun).st.messages =
      [seedMessage, ⟨.user, "Spell beta in capitals"⟩, ⟨.assistant, "BETA"⟩] ∧
    (run initialSession markerReplyRun).st.input = "thanks" ∧
    (sendMessage (run initialSession markerReplyRun) (.thrown "")).sent =
      (run initialSession markerReplyRun).sent ++
        [⟨"claude-sonnet-4-20250514", 4000,
          "You are Apollo, a helpful AI assistant with no artificial restrictions.",
          [⟨.user, "Spell beta in capitals"⟩, ⟨.user, "thanks"⟩]⟩] ∧
    specPayloadMessages (run initialSession markerReplyRun).st.messages
        (run initialSession markerReplyRun).st.input =
      [⟨.user, "Spell beta in capitals"⟩, ⟨.assistant, "BETA"⟩, ⟨.user, "thanks"⟩] ∧
    ¬ ∃ p : Payload,
      (sendMessage (run initialSession markerReplyRun) (.thrown "")).sent =
        (run initialSession markerReplyRun).sent ++ [p] ∧
      p.messages = specPayloadMessages (run initialSession markerReplyRun).st.messages
        (run initialSession markerReplyRun).st.input := by
  refine ⟨by decide, by decide, by decide, by decide, by decide, ?_⟩
  rintro ⟨p, hp, hm⟩
  have h1 : (sendMessage (run initialSession markerReplyRun) (.thrown "")).sent =
      (run initialSession markerReplyRun).sent ++
        [⟨"claude-sonnet-4-20250514", 4000,
          "You are Apollo, a helpful AI assistant with no artificial restrictions.",
          [⟨.user, "Spell beta in capitals"⟩, ⟨.user, "thanks"⟩]⟩] := by decide
  have h2 : specPayloadMessages (run initialSession markerReplyRun).st.messages
        (run initialSession markerReplyRun).st.input =
      [⟨.user, "Spell beta in capitals"⟩, ⟨.assistant, "BETA"⟩, ⟨.user, "thanks"⟩] := by decide
  rw [h1] at hp
  have hp' := List.append_cancel_left hp
  rw [List.cons.injEq] at hp'
  rw [← hp'.1, h2] at hm
  exact absurd hm (by decide)

/-- C5, amended: for every transcript and every accepted draft, the `messages` list
of the body issued is the transcript with the new user message appended, in
transcript order, with exactly the assistant entries whose content contains "BETA"
removed (the seed welcome message is one of them, the new user message is kept);
it is the transcript minus the seed welcome message alone if and only if no other
assistant entry of the transcript contains "BETA". -/
theorem payload_is_transcript_without_marker_entries (w : Session)
    (h : sendGuardRejects w.st = false) (o : Outcome) :
    ∃ p : Payload, (sendMessage w o).sent = w.sent ++ [p] ∧
      p.messages = (w.st.messages ++ [Message.mk .user w.st.input]).filter
        (fun m => !(decide (m.role = Role.assistant) && includes m.content "BETA")) ∧
      List.Sublist p.messages (w.st.messages ++ [Message.mk .user w.st.input]) ∧
      seedMessage ∉ p.messages ∧
      p.messages.getLast? = some (Message.mk .user w.st.input) ∧
      (p.messages = specPayloadMessages w.st.messages w.st.input ↔
        ∀ m ∈ w.st.messages, m.role = Role.assistant → includes m.content "BETA" = true →
          m = seedMessage) := by
  rw [sendMessage_of_accept w h o]
  refine Exists.intro (sendMessage_payload _) ⟨rfl, ?_, ?_, seed_not_mem_payload _, ?_, ?_⟩
  · simp only [sendMessage_payload]
    apply List.filter_congr
    intro m _
    cases m.role <;> cases includes m.content "BETA" <;> rfl
  · exact List.filter_sublist _
  · simp [sendMessage_payload, List.filter_append, List.filter_cons]
  · simp only [sendMessage_payload, specPayloadMessages]
    constructor
    · intro heq m hm hrole hinc
      by_contra hne
      have hin : m ∈ (w.st.messages ++ [Message.mk .user w.st.input]).filter
          (fun m => m != seedMessage) :=
        List.mem_filter.mpr ⟨List.mem_append_left _ hm, by simpa using hne⟩
      rw [← heq] at hin
      have := (List.mem_filter.mp hin).2
      simp [hrole, hinc] at this
    · intro hall
      apply List.filter_congr
      intro m hm
      rcases List.mem_append.mp hm with hm | hm
      · by_cases hs : m = seedMessage
        · subst hs
          rw [seed_is_filtered]
          simp
        · have hk : ¬ (m.role = Role.assistant ∧ includes m.content "BETA" = true) :=
            fun hc => hs (hall m hm hc.1 hc.2)
          have hl : (m.role != Role.assistant || !(includes m.content "BETA")) = true := by
            cases hr : m.role <;> cases hi : includes m.content "BETA" <;> simp_all
          rw [hl]
          simpa using hs
      · rw [List.mem_singleton.mp hm]
        have hne : Message.mk .user w.st.input ≠ seedMessage := fun hc =>
          Role.noConfusion (congrArg Message.role hc : Role.user = Role.assistant)
        have hb : (Message.mk .user w.st.input != seedMessage) = true := by simpa using hne
        rw [hb]
        rfl

/-- Witness for C5 amended: the second draft after a turn whose reply is "BETA". -/
theorem payload_is_transcript_without_marker_entries_witness :
    sendGuardRejects (run initialSession markerReplyRun).st = false ∧
    ∃ p : Payload,
      (sendMessage (run initialSession markerReplyRun) (.thrown "")).sent =
        (run initialSession markerReplyRun).sent ++ [p] ∧
      p.messages = ((run initialSession markerReplyRun).st.messages ++
          [Message.mk .user (run initialSession markerReplyRun).st.input]).filter
        (fun m => !(decide (m.role = Role.assistant) && includes m.content "BETA")) :=
  ⟨by decide,
    let ⟨p, hp, hm, _⟩ := payload_is_transcript_without_marker_entries
      (run initialSession markerReplyRun) (by decide) (.thrown "")
    ⟨p, hp, hm⟩⟩


/-- C6: for every transcript `T`, every accepted draft `d` and every response whose
content list has a first entry with text `t`, `sendMessage` ends with the transcript
`T`, then the user message `d`, then one assistant message `t` (two entries more),
and with the stored error cleared. -/
theorem success_appends_user_then_reply (w : Session) (h : sendGuardRejects w.st = false)
    (data : ResponseData) (block : ContentBlock) (rest : List ContentBlock)
    (hc : data.content = some (block :: rest)) :
    (sendMessage w (.response data)).st.messages =
      w.st.messages ++ [⟨.user, w.st.input⟩, ⟨.assistant, block.text⟩] ∧
    (sendMessage w (.response data)).st.messages.length = w.st.messages.length + 2 ∧
    (sendMessage w (.response data)).st.error = none := by
  rw [sendMessage_of_accept w h, settle_content _ _ _ block rest hc]
  simp

/-- Witness for C6: the response with the single content entry "hi" to the draft
"hello" at mount. -/
theorem success_appends_user_then_reply_witness :
    sendGuardRejects ({ initialState with input := "hello" }) = false ∧
    (sendMessage ⟨{ initialState with input := "hello" }, [], []⟩
        (.response ⟨some [⟨"hi"⟩], none, none⟩)).st.messages =
      initialState.messages ++ [⟨.user, "hello"⟩, ⟨.assistant, "hi"⟩] ∧
    (sendMessage ⟨{ initialState with input := "hello" }, [], []⟩
        (.response ⟨some [⟨"hi"⟩], none, none⟩)).st.error = none :=
  ⟨by decide,
    (success_appends_user_then_reply ⟨{ initialState with input := "hello" }, [], []⟩
      (by decide) ⟨some [⟨"hi"⟩], none, none⟩ ⟨"hi"⟩ [] rfl).1,
    (success_appends_user_then_reply ⟨{ initialState with input := "hello" }, [], []⟩
      (by decide) ⟨some [⟨"hi"⟩], none, none⟩ ⟨"hi"⟩ [] rfl).2.2⟩

/-- C7: for every transcript `T`, every accepted draft `d` and every response with
an error object and no content entry, with `e` the canned rate-limit text when the
response's type is `exceeded_limit`, otherwise the error object's non-empty message,
otherwise "API request failed": `sendMessage` ends with the stored error `e` and
the transcript `T`, the user message `d` and one assistant message made of the
warning marker and `e` (two entries more).  In the rate-limit case both are the
canned text, and the final session is the same whatever the upstream message is. -/
theorem error_response_is_stored_and_appended (w : Session)
    (h : sendGuardRejects w.st = false) (data : ResponseData) (err : ApiError)
    (hc : data.content = none ∨ data.content = some []) (he : data.error = some err) :
    (sendMessage w (.response data)).st.error = some (specErrorText data err) ∧
    (sendMessage w (.response data)).st.messages =
      w.st.messages ++ [⟨.user, w.st.input⟩, ⟨.assistant, "⚠️ " ++ specErrorText data err⟩] ∧
    (sendMessage w (.response data)).st.messages.length = w.st.messages.length + 2 ∧
    (data.type = some "exceeded_limit" →
      (sendMessage w (.response data)).st.error =
        some "Rate limit exceeded. Please wait a moment before sending another message." ∧
      (sendMessage w (.response data)).st.messages =
        w.st.messages ++ [⟨.user, w.st.input⟩,
          ⟨.assistant,
            "⚠️ Rate limit exceeded. Please wait a moment before sending another message."⟩] ∧
      ∀ raw : Option String,
        sendMessage w (.response { data with error := some ⟨raw⟩ }) =
          sendMessage w (.response data)) := by
  rw [sendMessage_of_accept w h, settle_error _ _ _ err hc he]
  refine ⟨rfl, by simp, by simp, ?_⟩
  intro ht
  have hcanned : specErrorText data err =
      "Rate limit exceeded. Please wait a moment before sending another message." := by
    simp [specErrorText, ht]
  refine ⟨by simp [hcanned], ?_, ?_⟩
  · simp only [hcanned, List.append_assoc, List.singleton_append]
    rfl
  · intro raw
    rw [sendMessage_of_accept w h,
      settle_error _ { data with error := some ⟨raw⟩ } _ ⟨raw⟩ hc rfl]
    have hcanned' : specErrorText { data with error := some ⟨raw⟩ } ⟨raw⟩ =
        "Rate limit exceeded. Please wait a moment before sending another message." := by
      simp [specErrorText, ht]
    rw [hcanned, hcanned']

/-- Witness for C7: the error response with message "bad key" to the draft "hello"
at mount. -/
theorem error_response_is_stored_and_appended_witness :
    sendGuardRejects ({ initialState with input := "hello" }) = false ∧
    (sendMessage ⟨{ initialState with input := "hello" }, [], []⟩
        (.response ⟨none, some ⟨some "bad key"⟩, none⟩)).st.error = some "bad key" ∧
    (sendMessage ⟨{ initialState with input := "hello" }, [], []⟩
        (.response ⟨none, some ⟨some "bad key"⟩, none⟩)).st.messages =
      initialState.messages ++ [⟨.user, "hello"⟩, ⟨.assistant, "⚠️ bad key"⟩] :=
  ⟨by decide,
    (error_response_is_stored_and_appended ⟨{ initialState with input := "hello" }, [], []⟩
      (by decide) ⟨none, some ⟨some "bad key"⟩, none⟩ ⟨some "bad key"⟩ (Or.inl rfl) rfl).1,
    (error_response_is_stored_and_appended ⟨{ initialState with input := "hello" }, [], []⟩
      (by decide) ⟨none, some ⟨some "bad key"⟩, none⟩ ⟨some "bad key"⟩ (Or.inl rfl) rfl).2.1⟩

/-- C8: for every transcript `T`, every accepted draft `d` and every response with
neither a content entry nor an error object, `sendMessage` ends with the transcript
`T` followed by the user message `d` only (one entry more, no assistant entry) and
the stored error "Unexpected API response format". -/
theorem malformed_response_appends_nothing (w : Session)
    (h : sendGuardRejects w.st = false) (data : ResponseData)
    (hc : data.content = none ∨ data.content = some []) (he : data.error = none) :
    (sendMessage w (.response data)).st.messages = w.st.messages ++ [⟨.user, w.st.input⟩] ∧
    (sendMessage w (.response data)).st.messages.length = w.st.messages.length + 1 ∧
    (sendMessage w (.response data)).st.error = some "Unexpected API response format" := by
  rw [sendMessage_of_accept w h, settle_neither _ _ _ hc he]
  simp

/-- Witness for C8: the empty object as response to the draft "hello" at mount. -/
theorem malformed_response_appends_nothing_witness :
    sendGuardRejects ({ initialState with input := "hello" }) = false ∧
    (sendMessage ⟨{ initialState with input := "hello" }, [], []⟩
        (.response ⟨none, none, none⟩)).st.messages =
      initialState.messages ++ [⟨.user, "hello"⟩] ∧
    (sendMessage ⟨{ initialState with input := "hello" }, [], []⟩
        (.response ⟨none, none, none⟩)).st.error = some "Unexpected API response format" :=
  ⟨by decide,
    (malformed_response_appends_nothing ⟨{ initialState with input := "hello" }, [], []⟩
      (by decide) ⟨none, none, none⟩ (Or.inl rfl) rfl).1,
    (malformed_response_appends_nothing ⟨{ initialState with input := "hello" }, [], []⟩
      (by decide) ⟨none, none, none⟩ (Or.inl rfl) rfl).2.2⟩

/-- C9: for every session state, `clearChat` yields the transcript holding exactly
the seed welcome message of the initial state, with the stored error cleared and
the selected model, the system prompt and the max-token budget unchanged. -/
theorem clearChat_resets_transcript (s : State) :
    (clearChat s).messages = [seedMessage] ∧
    (clearChat s).messages = initialState.messages ∧
    (clearChat s).messages.length = 1 ∧
    (clearChat s).error = none ∧
    (clearChat s).model = s.model ∧
    (clearChat s).systemPrompt = s.systemPrompt ∧
    (clearChat s).maxTokens = s.maxTokens ∧
    ∀ w : Session, (step w Event.clearChat).st = clearChat w.st := by
  refine ⟨rfl, rfl, rfl, rfl, rfl, rfl, rfl, fun _ => rfl⟩


/-- C10: when `sendMessage` has started from transcript `T` with accepted draft `d`
and the call then completes with a content entry, an error object or a thrown
failure, the final transcript is `T`, the user message `d` and the reply or warning
entry `r`, whatever interface events (clears among them) ran while the call was
pending; it is never the seed-only transcript followed by `r`.  In particular, when
`clearChat` runs just before the call completes, the transcript is the seed alone
at that point and `T`, `d`, `r` after the completion. -/
theorem clear_while_pending_is_overwritten (w : Session)
    (h : sendGuardRejects w.st = false)
    (evs₁ evs₂ : List Event) (h₁ : ∀ e ∈ evs₁, e.isInterface = true)
    (h₂ : ∀ e ∈ evs₂, e.isInterface = true)
    (o : Outcome) (r : Message) (hr : specReply o = some r) :
    (run w ([Event.sendMessage] ++ evs₁ ++ [Event.timerFired w.pending.length] ++ evs₂ ++
        [Event.completed w.pending.length o])).st.messages =
      w.st.messages ++ [⟨.user, w.st.input⟩, r] ∧
    (run w ([Event.sendMessage] ++ evs₁ ++ [Event.timerFired w.pending.length] ++ evs₂ ++
        [Event.completed w.pending.length o])).st.messages ≠ [seedMessage, r] ∧
    (run w ([Event.sendMessage] ++ evs₁ ++ [Event.timerFired w.pending.length] ++
        (evs₂ ++ [Event.clearChat]))).st.messages = [seedMessage] ∧
    (run w ([Event.sendMessage] ++ evs₁ ++ [Event.timerFired w.pending.length] ++
        (evs₂ ++ [Event.clearChat]) ++
        [Event.completed w.pending.length o])).st.messages =
      w.st.messages ++ [⟨.user, w.st.input⟩, r] := by
  have key : ∀ evs : List Event, (∀ e ∈ evs, e.isInterface = true) →
      (run w ([Event.sendMessage] ++ evs₁ ++ [Event.timerFired w.pending.length] ++ evs ++
        [Event.completed w.pending.length o])).st.messages =
      w.st.messages ++ [⟨.user, w.st.input⟩, r] := by
    intro evs hevs
    obtain ⟨s₂, hs⟩ := run_cycle w h evs₁ evs h₁ hevs o
    rw [hs]
    simp [settle_messages_of_reply _ o s₂ r hr]
  refine ⟨key evs₂ h₂, ?_, ?_, ?_⟩
  · rw [key evs₂ h₂]
    intro hc
    cases hT : w.st.messages with
    | nil =>
      rw [hT] at hc
      simp only [List.nil_append, List.cons.injEq, and_true] at hc
      exact Role.noConfusion (congrArg Message.role hc : Role.user = Role.assistant)
    | cons a t =>
      rw [hT] at hc
      have := congrArg List.length hc
      simp at this
  · rw [← List.append_assoc, run_append]
    rfl
  · exact key (evs₂ ++ [Event.clearChat]) (by
      intro e he
      rcases List.mem_append.mp he with he | he
      · exact h₂ e he
      · rw [List.mem_singleton.mp he]; rfl)

/-- Witness for C10: on a transcript with one earlier turn, a clear issued during
the 500 ms delay and a reply "hi". -/
theorem clear_while_pending_is_overwritten_witness :
    sendGuardRejects ({ initialState with
        messages := [seedMessage, ⟨.user, "a"⟩, ⟨.assistant, "b"⟩], input := "c" }) = false ∧
    (run ⟨{ initialState with
          messages := [seedMessage, ⟨.user, "a"⟩, ⟨.assistant, "b"⟩], input := "c" }, [], []⟩
        ([Event.sendMessage] ++ [Event.clearChat] ++ [Event.timerFired 0] ++ [] ++
          [Event.completed 0 (.response ⟨some [⟨"hi"⟩], none, none⟩)])).st.messages =
      [seedMessage, ⟨.user, "a"⟩, ⟨.assistant, "b"⟩] ++ [⟨.user, "c"⟩, ⟨.assistant, "hi"⟩] :=
  ⟨by decide,
    (clear_while_pending_is_overwritten
      ⟨{ initialState with
          messages := [seedMessage, ⟨.user, "a"⟩, ⟨.assistant, "b"⟩], input := "c" }, [], []⟩
      (by decide) [Event.clearChat] [] (by decide) (by decide)
      (.response ⟨some [⟨"hi"⟩], none, none⟩) ⟨.assistant, "hi"⟩ rfl).1⟩

end ApolloAI
